import Mathlib

set_option maxRecDepth 8000

/-!
Shallow embedding of `src/wcwidth.c` (Markus Kuhn's wcwidth/wcswidth for
Unicode, as adapted in this repository): the two interval tables, the
binary search `bisearch`, the single-codepoint classifiers `mk_wcwidth`
and `mk_wcwidth_cjk`, and the sequence accumulators `mk_wcswidth` and
`mk_wcswidth_cjk`.  C `unsigned int` code points are modelled as `Nat`
(theorems about 32-bit inputs carry an explicit `ucs < 2^32` bound);
C `int` results are modelled as `Int`.
-/

namespace Wcwidth

/-- The C `struct interval { unsigned int first; unsigned int last; }`. -/
structure Interval where
  first : Nat
  last : Nat
deriving DecidableEq

/-- Reading `table[i]`.  The table is held as a list; every lookup the
proofs rely on is in bounds, out-of-bounds reads yield a default entry. -/
def nth (t : List Interval) (i : Nat) : Interval := t.getD i (Interval.mk 0 0)

/-- The `combining[]` table of `mk_wcwidth`: sorted list of non-overlapping
intervals of non-spacing characters (all Mn, Me and Cf characters from
version 8.0.0 of DerivedGeneralCategory.txt), transcribed entry for entry
from the C source. -/
def combining : List Interval := [
  Interval.mk 0x00ad 0x00ad,
  Interval.mk 0x0300 0x036f,
  Interval.mk 0x0483 0x0489,
  Interval.mk 0x0591 0x05bd,
  Interval.mk 0x05bf 0x05bf,
  Interval.mk 0x05c1 0x05c2,
  Interval.mk 0x05c4 0x05c5,
  Interval.mk 0x05c7 0x05c7,
  Interval.mk 0x0600 0x0605,
  Interval.mk 0x0610 0x061a,
  Interval.mk 0x061c 0x061c,
  Interval.mk 0x064b 0x065f,
  Interval.mk 0x0670 0x0670,
  Interval.mk 0x06d6 0x06dd,
  Interval.mk 0x06df 0x06e4,
  Interval.mk 0x06e7 0x06e8,
  Interval.mk 0x06ea 0x06ed,
  Interval.mk 0x070f 0x070f,
  Interval.mk 0x0711 0x0711,
  Interval.mk 0x0730 0x074a,
  Interval.mk 0x07a6 0x07b0,
  Interval.mk 0x07eb 0x07f3,
  Interval.mk 0x0816 0x0819,
  Interval.mk 0x081b 0x0823,
  Interval.mk 0x0825 0x0827,
  Interval.mk 0x0829 0x082d,
  Interval.mk 0x0859 0x085b,
  Interval.mk 0x08e3 0x0902,
  Interval.mk 0x093a 0x093a,
  Interval.mk 0x093c 0x093c,
  Interval.mk 0x0941 0x0948,
  Interval.mk 0x094d 0x094d,
  Interval.mk 0x0951 0x0957,
  Interval.mk 0x0962 0x0963,
  Interval.mk 0x0981 0x0981,
  Interval.mk 0x09bc 0x09bc,
  Interval.mk 0x09c1 0x09c4,
  Interval.mk 0x09cd 0x09cd,
  Interval.mk 0x09e2 0x09e3,
  Interval.mk 0x0a01 0x0a02,
  Interval.mk 0x0a3c 0x0a3c,
  Interval.mk 0x0a41 0x0a42,
  Interval.mk 0x0a47 0x0a48,
  Interval.mk 0x0a4b 0x0a4d,
  Interval.mk 0x0a51 0x0a51,
  Interval.mk 0x0a70 0x0a71,
  Interval.mk 0x0a75 0x0a75,
  Interval.mk 0x0a81 0x0a82,
  Interval.mk 0x0abc 0x0abc,
  Interval.mk 0x0ac1 0x0ac5,
  Interval.mk 0x0ac7 0x0ac8,
  Interval.mk 0x0acd 0x0acd,
  Interval.mk 0x0ae2 0x0ae3,
  Interval.mk 0x0b01 0x0b01,
  Interval.mk 0x0b3c 0x0b3c,
  Interval.mk 0x0b3f 0x0b3f,
  Interval.mk 0x0b41 0x0b44,
  Interval.mk 0x0b4d 0x0b4d,
  Interval.mk 0x0b56 0x0b56,
  Interval.mk 0x0b62 0x0b63,
  Interval.mk 0x0b82 0x0b82,
  Interval.mk 0x0bc0 0x0bc0,
  Interval.mk 0x0bcd 0x0bcd,
  Interval.mk 0x0c00 0x0c00,
  Interval.mk 0x0c3e 0x0c40,
  Interval.mk 0x0c46 0x0c48,
  Interval.mk 0x0c4a 0x0c4d,
  Interval.mk 0x0c55 0x0c56,
  Interval.mk 0x0c62 0x0c63,
  Interval.mk 0x0c81 0x0c81,
  Interval.mk 0x0cbc 0x0cbc,
  Interval.mk 0x0cbf 0x0cbf,
  Interval.mk 0x0cc6 0x0cc6,
  Interval.mk 0x0ccc 0x0ccd,
  Interval.mk 0x0ce2 0x0ce3,
  Interval.mk 0x0d01 0x0d01,
  Interval.mk 0x0d41 0x0d44,
  Interval.mk 0x0d4d 0x0d4d,
  Interval.mk 0x0d62 0x0d63,
  Interval.mk 0x0dca 0x0dca,
  Interval.mk 0x0dd2 0x0dd4,
  Interval.mk 0x0dd6 0x0dd6,
  Interval.mk 0x0e31 0x0e31,
  Interval.mk 0x0e34 0x0e3a,
  Interval.mk 0x0e47 0x0e4e,
  Interval.mk 0x0eb1 0x0eb1,
  Interval.mk 0x0eb4 0x0eb9,
  Interval.mk 0x0ebb 0x0ebc,
  Interval.mk 0x0ec8 0x0ecd,
  Interval.mk 0x0f18 0x0f19,
  Interval.mk 0x0f35 0x0f35,
  Interval.mk 0x0f37 0x0f37,
  Interval.mk 0x0f39 0x0f39,
  Interval.mk 0x0f71 0x0f7e,
  Interval.mk 0x0f80 0x0f84,
  Interval.mk 0x0f86 0x0f87,
  Interval.mk 0x0f8d 0x0f97,
  Interval.mk 0x0f99 0x0fbc,
  Interval.mk 0x0fc6 0x0fc6,
  Interval.mk 0x102d 0x1030,
  Interval.mk 0x1032 0x1037,
  Interval.mk 0x1039 0x103a,
  Interval.mk 0x103d 0x103e,
  Interval.mk 0x1058 0x1059,
  Interval.mk 0x105e 0x1060,
  Interval.mk 0x1071 0x1074,
  Interval.mk 0x1082 0x1082,
  Interval.mk 0x1085 0x1086,
  Interval.mk 0x108d 0x108d,
  Interval.mk 0x109d 0x109d,
  Interval.mk 0x135d 0x135f,
  Interval.mk 0x1712 0x1714,
  Interval.mk 0x1732 0x1734,
  Interval.mk 0x1752 0x1753,
  Interval.mk 0x1772 0x1773,
  Interval.mk 0x17b4 0x17b5,
  Interval.mk 0x17b7 0x17bd,
  Interval.mk 0x17c6 0x17c6,
  Interval.mk 0x17c9 0x17d3,
  Interval.mk 0x17dd 0x17dd,
  Interval.mk 0x180b 0x180e,
  Interval.mk 0x18a9 0x18a9,
  Interval.mk 0x1920 0x1922,
  Interval.mk 0x1927 0x1928,
  Interval.mk 0x1932 0x1932,
  Interval.mk 0x1939 0x193b,
  Interval.mk 0x1a17 0x1a18,
  Interval.mk 0x1a1b 0x1a1b,
  Interval.mk 0x1a56 0x1a56,
  Interval.mk 0x1a58 0x1a5e,
  Interval.mk 0x1a60 0x1a60,
  Interval.mk 0x1a62 0x1a62,
  Interval.mk 0x1a65 0x1a6c,
  Interval.mk 0x1a73 0x1a7c,
  Interval.mk 0x1a7f 0x1a7f,
  Interval.mk 0x1ab0 0x1abe,
  Interval.mk 0x1b00 0x1b03,
  Interval.mk 0x1b34 0x1b34,
  Interval.mk 0x1b36 0x1b3a,
  Interval.mk 0x1b3c 0x1b3c,
  Interval.mk 0x1b42 0x1b42,
  Interval.mk 0x1b6b 0x1b73,
  Interval.mk 0x1b80 0x1b81,
  Interval.mk 0x1ba2 0x1ba5,
  Interval.mk 0x1ba8 0x1ba9,
  Interval.mk 0x1bab 0x1bad,
  Interval.mk 0x1be6 0x1be6,
  Interval.mk 0x1be8 0x1be9,
  Interval.mk 0x1bed 0x1bed,
  Interval.mk 0x1bef 0x1bf1,
  Interval.mk 0x1c2c 0x1c33,
  Interval.mk 0x1c36 0x1c37,
  Interval.mk 0x1cd0 0x1cd2,
  Interval.mk 0x1cd4 0x1ce0,
  Interval.mk 0x1ce2 0x1ce8,
  Interval.mk 0x1ced 0x1ced,
  Interval.mk 0x1cf4 0x1cf4,
  Interval.mk 0x1cf8 0x1cf9,
  Interval.mk 0x1dc0 0x1df5,
  Interval.mk 0x1dfc 0x1dff,
  Interval.mk 0x200b 0x200f,
  Interval.mk 0x202a 0x202e,
  Interval.mk 0x2060 0x2064,
  Interval.mk 0x2066 0x206f,
  Interval.mk 0x20d0 0x20f0,
  Interval.mk 0x2cef 0x2cf1,
  Interval.mk 0x2d7f 0x2d7f,
  Interval.mk 0x2de0 0x2dff,
  Interval.mk 0x302a 0x302d,
  Interval.mk 0x3099 0x309a,
  Interval.mk 0xa66f 0xa672,
  Interval.mk 0xa674 0xa67d,
  Interval.mk 0xa69e 0xa69f,
  Interval.mk 0xa6f0 0xa6f1,
  Interval.mk 0xa802 0xa802,
  Interval.mk 0xa806 0xa806,
  Interval.mk 0xa80b 0xa80b,
  Interval.mk 0xa825 0xa826,
  Interval.mk 0xa8c4 0xa8c4,
  Interval.mk 0xa8e0 0xa8f1,
  Interval.mk 0xa926 0xa92d,
  Interval.mk 0xa947 0xa951,
  Interval.mk 0xa980 0xa982,
  Interval.mk 0xa9b3 0xa9b3,
  Interval.mk 0xa9b6 0xa9b9,
  Interval.mk 0xa9bc 0xa9bc,
  Interval.mk 0xa9e5 0xa9e5,
  Interval.mk 0xaa29 0xaa2e,
  Interval.mk 0xaa31 0xaa32,
  Interval.mk 0xaa35 0xaa36,
  Interval.mk 0xaa43 0xaa43,
  Interval.mk 0xaa4c 0xaa4c,
  Interval.mk 0xaa7c 0xaa7c,
  Interval.mk 0xaab0 0xaab0,
  Interval.mk 0xaab2 0xaab4,
  Interval.mk 0xaab7 0xaab8,
  Interval.mk 0xaabe 0xaabf,
  Interval.mk 0xaac1 0xaac1,
  Interval.mk 0xaaec 0xaaed,
  Interval.mk 0xaaf6 0xaaf6,
  Interval.mk 0xabe5 0xabe5,
  Interval.mk 0xabe8 0xabe8,
  Interval.mk 0xabed 0xabed,
  Interval.mk 0xfb1e 0xfb1e,
  Interval.mk 0xfe00 0xfe0f,
  Interval.mk 0xfe20 0xfe2f,
  Interval.mk 0xfeff 0xfeff,
  Interval.mk 0xfff9 0xfffb,
  Interval.mk 0x101fd 0x101fd,
  Interval.mk 0x102e0 0x102e0,
  Interval.mk 0x10376 0x1037a,
  Interval.mk 0x10a01 0x10a03,
  Interval.mk 0x10a05 0x10a06,
  Interval.mk 0x10a0c 0x10a0f,
  Interval.mk 0x10a38 0x10a3a,
  Interval.mk 0x10a3f 0x10a3f,
  Interval.mk 0x10ae5 0x10ae6,
  Interval.mk 0x11001 0x11001,
  Interval.mk 0x11038 0x11046,
  Interval.mk 0x1107f 0x11081,
  Interval.mk 0x110b3 0x110b6,
  Interval.mk 0x110b9 0x110ba,
  Interval.mk 0x110bd 0x110bd,
  Interval.mk 0x11100 0x11102,
  Interval.mk 0x11127 0x1112b,
  Interval.mk 0x1112d 0x11134,
  Interval.mk 0x11173 0x11173,
  Interval.mk 0x11180 0x11181,
  Interval.mk 0x111b6 0x111be,
  Interval.mk 0x111ca 0x111cc,
  Interval.mk 0x1122f 0x11231,
  Interval.mk 0x11234 0x11234,
  Interval.mk 0x11236 0x11237,
  Interval.mk 0x112df 0x112df,
  Interval.mk 0x112e3 0x112ea,
  Interval.mk 0x11300 0x11301,
  Interval.mk 0x1133c 0x1133c,
  Interval.mk 0x11340 0x11340,
  Interval.mk 0x11366 0x1136c,
  Interval.mk 0x11370 0x11374,
  Interval.mk 0x114b3 0x114b8,
  Interval.mk 0x114ba 0x114ba,
  Interval.mk 0x114bf 0x114c0,
  Interval.mk 0x114c2 0x114c3,
  Interval.mk 0x115b2 0x115b5,
  Interval.mk 0x115bc 0x115bd,
  Interval.mk 0x115bf 0x115c0,
  Interval.mk 0x115dc 0x115dd,
  Interval.mk 0x11633 0x1163a,
  Interval.mk 0x1163d 0x1163d,
  Interval.mk 0x1163f 0x11640,
  Interval.mk 0x116ab 0x116ab,
  Interval.mk 0x116ad 0x116ad,
  Interval.mk 0x116b0 0x116b5,
  Interval.mk 0x116b7 0x116b7,
  Interval.mk 0x1171d 0x1171f,
  Interval.mk 0x11722 0x11725,
  Interval.mk 0x11727 0x1172b,
  Interval.mk 0x16af0 0x16af4,
  Interval.mk 0x16b30 0x16b36,
  Interval.mk 0x16f8f 0x16f92,
  Interval.mk 0x1bc9d 0x1bc9e,
  Interval.mk 0x1bca0 0x1bca3,
  Interval.mk 0x1d167 0x1d169,
  Interval.mk 0x1d173 0x1d182,
  Interval.mk 0x1d185 0x1d18b,
  Interval.mk 0x1d1aa 0x1d1ad,
  Interval.mk 0x1d242 0x1d244,
  Interval.mk 0x1da00 0x1da36,
  Interval.mk 0x1da3b 0x1da6c,
  Interval.mk 0x1da75 0x1da75,
  Interval.mk 0x1da84 0x1da84,
  Interval.mk 0x1da9b 0x1da9f,
  Interval.mk 0x1daa1 0x1daaf,
  Interval.mk 0x1e8d0 0x1e8d6,
  Interval.mk 0xe0001 0xe0001,
  Interval.mk 0xe0020 0xe007f,
  Interval.mk 0xe0100 0xe01ef]

/-- The `wide[]` table of `mk_wcwidth`: sorted list of non-overlapping
intervals of wide characters (all W and F characters from version 8.0.0
of EastAsianWidth.txt), transcribed entry for entry from the C source. -/
def wide : List Interval := [
  Interval.mk 0x1100 0x115f,
  Interval.mk 0x2329 0x232a,
  Interval.mk 0x2e80 0x2e99,
  Interval.mk 0x2e9b 0x2ef3,
  Interval.mk 0x2f00 0x2fd5,
  Interval.mk 0x2ff0 0x2ffb,
  Interval.mk 0x3000 0x303e,
  Interval.mk 0x3041 0x3096,
  Interval.mk 0x3099 0x30ff,
  Interval.mk 0x3105 0x312d,
  Interval.mk 0x3131 0x318e,
  Interval.mk 0x3190 0x31ba,
  Interval.mk 0x31c0 0x31e3,
  Interval.mk 0x31f0 0x321e,
  Interval.mk 0x3220 0x3247,
  Interval.mk 0x3250 0x32fe,
  Interval.mk 0x3300 0x4dbf,
  Interval.mk 0x4e00 0xa48c,
  Interval.mk 0xa490 0xa4c6,
  Interval.mk 0xa960 0xa97c,
  Interval.mk 0xac00 0xd7a3,
  Interval.mk 0xf900 0xfaff,
  Interval.mk 0xfe10 0xfe19,
  Interval.mk 0xfe30 0xfe52,
  Interval.mk 0xfe54 0xfe66,
  Interval.mk 0xfe68 0xfe6b,
  Interval.mk 0xff01 0xff60,
  Interval.mk 0xffe0 0xffe6,
  Interval.mk 0x1b000 0x1b001,
  Interval.mk 0x1f200 0x1f202,
  Interval.mk 0x1f210 0x1f23a,
  Interval.mk 0x1f240 0x1f248,
  Interval.mk 0x1f250 0x1f251,
  Interval.mk 0x20000 0x2fffd,
  Interval.mk 0x30000 0x3fffd]

/-- The `while (max >= min)` loop of `bisearch`.  `min` and `max` are the
C `int` index bounds; the reachable states always have `0 ≤ min`, where
C integer division agrees with `Int` division. -/
def bisearchLoop (ucs : Nat) (table : List Interval) (min max : Int) : Bool :=
  if h : max ≥ min then
    let mid := (min + max) / 2
    if ucs > (nth table mid.toNat).last then
      bisearchLoop ucs table (mid + 1) max
    else if ucs < (nth table mid.toNat).first then
      bisearchLoop ucs table min (mid - 1)
    else
      true
  else
    false
termination_by (max - min + 1).toNat
decreasing_by
  all_goals omega

/-- The function `bisearch(ucs, table, max)`: auxiliary function for binary search in
an interval table; the initial range check followed by the loop started
at `min = 0`. -/
def bisearch (ucs : Nat) (table : List Interval) (max : Int) : Bool :=
  if ucs < (nth table 0).first ∨ ucs > (nth table max.toNat).last then
    false
  else
    bisearchLoop ucs table 0 max

/-- The classifier `mk_wcwidth(ucs)`: the tiered single-codepoint width classifier.  The
table size arguments are `sizeof(tbl)/sizeof(struct interval) - 1`. -/
def mk_wcwidth (ucs : Nat) : Int :=
  if ucs < 0x0300 then
    if ucs = 0 then 0
    else if ucs < 32 ∨ (0x7f ≤ ucs ∧ ucs < 0xa0) then -1
    else 1
  else if bisearch ucs combining ((combining.length : Int) - 1) then 0
  else if ucs < 0x1100 then 1
  else if 0x1160 ≤ ucs ∧ ucs ≤ 0x11FF then 0
  else 1 + (if bisearch ucs wide ((wide.length : Int) - 1) then 1 else 0)

/-- The common loop shape of `mk_wcswidth` and `mk_wcswidth_cjk`
(`for (;*pwcs && n-- > 0; pwcs++) ...`), parameterised by the
per-codepoint classifier; `width` is the running accumulator.  The
sequence is modelled as a list; the loop stops at a zero element or when
the budget `n` is exhausted (an exhausted list also stops the loop). -/
def wcswidthLoop (cls : Nat → Int) : List Nat → Nat → Int → Int
  | [], _, width => width
  | c :: rest, n, width =>
    if c = 0 then width
    else if n = 0 then width
    else
      let w := cls c
      if w < 0 then -1
      else wcswidthLoop cls rest (n - 1) (width + w)

/-- The accumulator `mk_wcswidth(pwcs, n)`: sum of `mk_wcwidth` over the sequence, `-1`
as soon as any element is non-printable. -/
def mk_wcswidth (pwcs : List Nat) (n : Nat) : Int :=
  wcswidthLoop mk_wcwidth pwcs n 0

/-- The variant `mk_wcwidth_cjk(ucs)`: the legacy-DBCS variant; widths of exactly 1
in `[0x00A1, 0xFF61)`, except the Won sign `0x20A9`, are promoted to 2. -/
def mk_wcwidth_cjk (ucs : Nat) : Int :=
  let w := mk_wcwidth ucs
  if w = 1 ∧ 0x00A1 ≤ ucs ∧ ucs < 0xFF61 ∧ ucs ≠ 0x20A9 then 2
  else w

/-- The accumulator `mk_wcswidth_cjk(pwcs, n)`: the same loop as `mk_wcswidth`, calling
`mk_wcwidth_cjk` per element. -/
def mk_wcswidth_cjk (pwcs : List Nat) (n : Nat) : Int :=
  wcswidthLoop mk_wcwidth_cjk pwcs n 0

/-- Membership of a code point in some interval of a table. -/
def InTable (t : List Interval) (c : Nat) : Prop :=
  ∃ iv ∈ t, iv.first ≤ c ∧ c ≤ iv.last

instance (t : List Interval) (c : Nat) : Decidable (InTable t c) := by
  unfold InTable
  infer_instance

/-- The table invariant of the spec: every entry is an ordered pair, and
consecutive entries are strictly ascending (hence non-overlapping). -/
def SortedTable (t : List Interval) : Prop :=
  (∀ i < t.length, (nth t i).first ≤ (nth t i).last) ∧
  ∀ i < t.length - 1, (nth t i).last < (nth t (i + 1)).first

instance (t : List Interval) : Decidable (SortedTable t) := by
  unfold SortedTable
  infer_instance

/-! Helper lemmas about table lookups and sortedness. -/

/-- An in-bounds `nth` lookup is a `get`. -/
theorem nth_eq_get : ∀ (t : List Interval) (i : Nat) (h : i < t.length),
    nth t i = t.get ⟨i, h⟩
  | _ :: _, 0, _ => rfl
  | _ :: t, i + 1, h => nth_eq_get t i (Nat.lt_of_succ_lt_succ h)

/-- In a sorted table, a strictly earlier interval ends strictly before a
later interval begins. -/
theorem sorted_lt (t : List Interval) (h : SortedTable t) (i j : Nat)
    (hij : i < j) (hj : j < t.length) :
    (nth t i).last < (nth t j).first := by
  induction j with
  | zero => omega
  | succ k ih =>
    rcases Nat.lt_succ_iff_lt_or_eq.mp hij with hik | hik
    · have h1 := ih hik (by omega)
      have h2 := h.1 k (by omega)
      have h3 := h.2 k (by omega)
      omega
    · subst hik
      exact h.2 i (by omega)

/-- Membership in a table, phrased by index. -/
theorem inTable_iff_index (t : List Interval) (c : Nat) :
    InTable t c ↔ ∃ i < t.length, (nth t i).first ≤ c ∧ c ≤ (nth t i).last := by
  constructor
  · rintro ⟨iv, hmem, h1, h2⟩
    obtain ⟨⟨i, hi⟩, hget⟩ := List.mem_iff_get.mp hmem
    refine ⟨i, hi, ?_, ?_⟩ <;> rw [nth_eq_get t i hi, hget] <;> assumption
  · rintro ⟨i, hi, h1, h2⟩
    refine ⟨nth t i, ?_, h1, h2⟩
    rw [nth_eq_get t i hi]
    exact List.get_mem t i hi

/-- Correctness of the binary-search loop: when `min` and `max` bracket
all candidate intervals (everything strictly below `min` ends before
`ucs`, everything strictly above `max` begins after `ucs`), the loop
reports a hit exactly when some interval of the table contains `ucs`. -/
theorem bisearchLoop_iff (ucs : Nat) (t : List Interval) (h : SortedTable t)
    (min max : Int) (hmin : 0 ≤ min) (hmax : max < (t.length : Int))
    (hlo : ∀ i : Nat, i < t.length → (i : Int) < min → (nth t i).last < ucs)
    (hhi : ∀ i : Nat, i < t.length → max < (i : Int) → ucs < (nth t i).first) :
    bisearchLoop ucs t min max = true ↔
      ∃ i < t.length, (nth t i).first ≤ ucs ∧ ucs ≤ (nth t i).last := by
  rw [bisearchLoop]
  by_cases hc : max ≥ min
  case pos =>
    rw [dif_pos hc]
    have hm0 : 0 ≤ (min + max) / 2 := by omega
    have hmlt : ((min + max) / 2).toNat < t.length := by omega
    by_cases h1 : ucs > (nth t ((min + max) / 2).toNat).last
    case pos =>
      rw [if_pos h1]
      refine bisearchLoop_iff ucs t h ((min + max) / 2 + 1) max (by omega) hmax ?_ hhi
      intro i hi him
      rcases Nat.lt_or_ge i ((min + max) / 2).toNat with hlt | hge
      · have hs := sorted_lt t h i ((min + max) / 2).toNat hlt hmlt
        have hw := h.1 ((min + max) / 2).toNat hmlt
        omega
      · have hieq : i = ((min + max) / 2).toNat := by omega
        subst hieq
        omega
    case neg =>
      rw [if_neg h1]
      by_cases h2 : ucs < (nth t ((min + max) / 2).toNat).first
      case pos =>
        rw [if_pos h2]
        refine bisearchLoop_iff ucs t h min ((min + max) / 2 - 1) hmin (by omega) hlo ?_
        intro i hi him
        rcases Nat.lt_or_ge ((min + max) / 2).toNat i with hlt | hge
        · have hs := sorted_lt t h ((min + max) / 2).toNat i hlt hi
          have hw := h.1 ((min + max) / 2).toNat hmlt
          omega
        · have hieq : i = ((min + max) / 2).toNat := by omega
          subst hieq
          omega
      case neg =>
        rw [if_neg h2]
        refine iff_of_true rfl ⟨((min + max) / 2).toNat, hmlt, by omega, by omega⟩
  case neg =>
    rw [dif_neg hc]
    refine iff_of_false Bool.false_ne_true ?_
    rintro ⟨i, hi, hf, hl⟩
    rcases Int.lt_or_le (i : Int) min with him | him
    · have := hlo i hi him
      omega
    · have := hhi i hi (by omega)
      omega
termination_by (max - min + 1).toNat
decreasing_by
  all_goals omega


/-- Correctness of `bisearch` on a sorted non-empty table, called as in C
with `max = length - 1`: the result is a hit exactly for table members. -/
theorem bisearch_iff (ucs : Nat) (t : List Interval) (h : SortedTable t)
    (hne : t ≠ []) :
    bisearch ucs t ((t.length : Int) - 1) = true ↔ InTable t ucs := by
  have hlen : 0 < t.length := List.length_pos.mpr hne
  have htoNat : ((t.length : Int) - 1).toNat = t.length - 1 := by omega
  rw [inTable_iff_index]
  unfold bisearch
  rw [htoNat]
  by_cases hg : ucs < (nth t 0).first ∨ ucs > (nth t (t.length - 1)).last
  · rw [if_pos hg]
    refine iff_of_false Bool.false_ne_true ?_
    rintro ⟨i, hi, hf, hl⟩
    rcases hg with hg | hg
    · rcases Nat.eq_zero_or_pos i with hz | hpos
      · subst hz
        omega
      · have hs := sorted_lt t h 0 i hpos hi
        have hw := h.1 0 hlen
        omega
    · rcases Nat.lt_or_ge i (t.length - 1) with hlt | hge
      · have hs := sorted_lt t h i (t.length - 1) hlt (by omega)
        have hw := h.1 (t.length - 1) (by omega)
        omega
      · have hieq : i = t.length - 1 := by omega
        subst hieq
        omega
  · rw [if_neg hg]
    refine bisearchLoop_iff ucs t h 0 ((t.length : Int) - 1) le_rfl (by omega) ?_ ?_
    · intro i hi him
      omega
    · intro i hi him
      omega

/-- The `combining` table satisfies the table invariant. -/
theorem combining_sorted : SortedTable combining := by decide

/-- The `wide` table satisfies the table invariant. -/
theorem wide_sorted : SortedTable wide := by decide

/-- Every interval of the `wide` table starts at `0x1100` or above. -/
theorem wide_first_lb : ∀ iv ∈ wide, 0x1100 ≤ iv.first := by decide

/-- No interval of the `wide` table meets the Hangul Jamo band
`[0x1160, 0x11FF]`. -/
theorem wide_no_jamo : ∀ iv ∈ wide, iv.last < 0x1160 ∨ 0x2329 ≤ iv.first := by
  decide

/-- No interval of the `combining` table meets the Hangul Jamo band
`[0x1160, 0x11FF]`. -/
theorem combining_no_jamo :
    ∀ iv ∈ combining, iv.last < 0x1160 ∨ 0x11FF < iv.first := by decide

/-- The only interval of the `combining` table below `0x300` is the
soft-hyphen singleton. -/
theorem combining_low :
    ∀ iv ∈ combining, (iv.first = 0xad ∧ iv.last = 0xad) ∨ 0x300 ≤ iv.first := by
  decide

/-- The classifier only ever produces a width in `{-1, 0, 1, 2}`. -/
theorem mk_wcwidth_mem (ucs : Nat) :
    mk_wcwidth ucs = -1 ∨ mk_wcwidth ucs = 0 ∨ mk_wcwidth ucs = 1 ∨
      mk_wcwidth ucs = 2 := by
  unfold mk_wcwidth
  split_ifs <;> simp


/-- Characterisation of the accumulator loop: for any classifier, the
loop sums the classified widths of the traversed elements (the longest
zero-free front of the list, capped at `n` elements) on top of the
accumulator, unless one of them classifies negatively, in which case the
result is `-1` with every partial sum discarded. -/
theorem wcswidthLoop_eq (f : Nat → Int) :
    ∀ (l : List Nat) (n : Nat) (acc : Int),
    wcswidthLoop f l n acc =
      if ∀ c ∈ (l.takeWhile (fun c => c ≠ 0)).take n, 0 ≤ f c then
        acc + (((l.takeWhile (fun c => c ≠ 0)).take n).map f).sum
      else -1 := by
  intro l
  induction l with
  | nil =>
    intro n acc
    simp [wcswidthLoop]
  | cons c rest ih =>
    intro n acc
    by_cases hc : c = 0
    · subst hc
      simp [wcswidthLoop, List.takeWhile]
    · rcases Nat.eq_zero_or_pos n with hz | hn
      · subst hz
        simp [wcswidthLoop, hc]
      · have hcons :
            ((c :: rest).takeWhile (fun c => c ≠ 0)).take n =
              c :: ((rest.takeWhile (fun c => c ≠ 0)).take (n - 1)) := by
          rcases Nat.exists_eq_succ_of_ne_zero (Nat.pos_iff_ne_zero.mp hn) with ⟨m, hm⟩
          subst hm
          simp [List.takeWhile, hc]
        rw [hcons]
        rw [wcswidthLoop]
        rw [if_neg hc, if_neg (Nat.pos_iff_ne_zero.mp hn)]
        by_cases hw : f c < 0
        · rw [if_pos hw]
          have : ¬ ∀ x ∈ c :: (rest.takeWhile (fun c => c ≠ 0)).take (n - 1), 0 ≤ f x := by
            intro hall
            have := hall c (List.mem_cons_self c _)
            omega
          rw [if_neg this]
        · rw [if_neg hw]
          rw [ih (n - 1) (acc + f c)]
          by_cases hall : ∀ x ∈ (rest.takeWhile (fun c => c ≠ 0)).take (n - 1), 0 ≤ f x
          · rw [if_pos hall, if_pos]
            · simp
              ring
            · intro x hx
              rcases List.mem_cons.mp hx with hx | hx
              · subst hx
                omega
              · exact hall x hx
          · rw [if_neg hall, if_neg]
            intro hall2
            exact hall fun x hx => hall2 x (List.mem_cons_of_mem c hx)


/-! Claim theorems. -/

/-- C1: the single-codepoint classifier is total on 32-bit code points
(it is a total Lean function, with no effects or failure), and its value
is always one of -1, 0, 1, 2. -/
theorem claim_classify_total (ucs : Nat) (hbound : ucs < 2 ^ 32) :
    mk_wcwidth ucs = -1 ∨ mk_wcwidth ucs = 0 ∨ mk_wcwidth ucs = 1 ∨
      mk_wcwidth ucs = 2 :=
  mk_wcwidth_mem ucs

/-- Witness for C1 at the concrete code point 0x41. -/
theorem claim_classify_total_witness :
    (0x41 : Nat) < 2 ^ 32 ∧
      (mk_wcwidth 0x41 = -1 ∨ mk_wcwidth 0x41 = 0 ∨ mk_wcwidth 0x41 = 1 ∨
        mk_wcwidth 0x41 = 2) :=
  ⟨by norm_num, claim_classify_total 0x41 (by norm_num)⟩

/-- C2: `mk_wcswidth` traverses elements until the first zero element or
until `n` elements are consumed; if any traversed element classifies as
-1 it returns -1 with no partial sum, otherwise the non-negative sum of
the traversed widths; and the two concrete examples of the claim hold. -/
theorem claim_sequence_width :
    (∀ (l : List Nat) (n : Nat),
      ((∃ c ∈ (l.takeWhile (fun c => c ≠ 0)).take n, mk_wcwidth c = -1) →
        mk_wcswidth l n = -1) ∧
      ((∀ c ∈ (l.takeWhile (fun c => c ≠ 0)).take n, mk_wcwidth c ≠ -1) →
        mk_wcswidth l n =
            (((l.takeWhile (fun c => c ≠ 0)).take n).map mk_wcwidth).sum ∧
          0 ≤ mk_wcswidth l n)) ∧
    mk_wcswidth [0x41, 0x07, 0x42] 3 = -1 ∧ mk_wcswidth [0x41, 0] 5 = 1 := by
  refine ⟨?_, by decide, by decide⟩
  intro l n
  have hkey := wcswidthLoop_eq mk_wcwidth l n 0
  constructor
  · rintro ⟨c, hc, hneg⟩
    rw [mk_wcswidth, hkey, if_neg]
    intro hall
    have := hall c hc
    omega
  · intro hall
    have hge : ∀ c ∈ (l.takeWhile (fun c => c ≠ 0)).take n, 0 ≤ mk_wcwidth c := by
      intro c hc
      have hm := mk_wcwidth_mem c
      have := hall c hc
      omega
    have hsum : 0 ≤ (((l.takeWhile (fun c => c ≠ 0)).take n).map mk_wcwidth).sum := by
      apply List.sum_nonneg
      intro x hx
      obtain ⟨c, hc, hxc⟩ := List.mem_map.mp hx
      rw [← hxc]
      exact hge c hc
    rw [mk_wcswidth, hkey, if_pos hge]
    omega

/-- Witness for C2: the control character 0x07 aborts the sum; a clean
ASCII pair sums its widths. -/
theorem claim_sequence_width_witness :
    mk_wcswidth [0x41, 0x07, 0x42] 3 = -1 ∧
    (mk_wcswidth [0x41, 0x42] 5 =
        (((([0x41, 0x42] : List Nat).takeWhile (fun c => c ≠ 0)).take 5).map
            mk_wcwidth).sum ∧
      0 ≤ mk_wcswidth [0x41, 0x42] 5) :=
  ⟨(claim_sequence_width.1 [0x41, 0x07, 0x42] 3).1 ⟨0x07, by decide, by decide⟩,
   (claim_sequence_width.1 [0x41, 0x42] 5).2 (by decide)⟩

/-- C3: on a non-empty table satisfying the sortedness invariant,
`bisearch` (a total function, hence terminating) reports a hit exactly
when some interval of the table contains the code point. -/
theorem claim_bisearch_correct (ucs : Nat) (t : List Interval)
    (hne : t ≠ []) (h : SortedTable t) :
    bisearch ucs t ((t.length : Int) - 1) = true ↔ InTable t ucs :=
  bisearch_iff ucs t h hne

/-- Witness for C3 on a concrete two-interval table. -/
theorem claim_bisearch_correct_witness :
    ([Interval.mk 0x300 0x36f, Interval.mk 0x483 0x489] ≠ ([] : List Interval)) ∧
    SortedTable [Interval.mk 0x300 0x36f, Interval.mk 0x483 0x489] ∧
    (bisearch 0x310 [Interval.mk 0x300 0x36f, Interval.mk 0x483 0x489]
        ((([Interval.mk 0x300 0x36f,
            Interval.mk 0x483 0x489] : List Interval).length : Int) - 1) = true ↔
      InTable [Interval.mk 0x300 0x36f, Interval.mk 0x483 0x489] 0x310) :=
  ⟨by decide, by decide,
    claim_bisearch_correct 0x310 [Interval.mk 0x300 0x36f, Interval.mk 0x483 0x489]
      (by decide) (by decide)⟩

/-- Counterexample to C4 as stated: 0x3099 (combining katakana-hiragana
voiced sound mark) lies in the wide table interval [0x3099, 0x30ff], but
the combining table (consulted first) also contains it, so it classifies
as 0, not 2. -/
theorem claim_wide_table_cex : InTable wide 0x3099 ∧ mk_wcwidth 0x3099 ≠ 2 := by
  constructor
  · decide
  · have h : mk_wcwidth 0x3099 = 0 := by
      simp [mk_wcwidth, bisearch, bisearchLoop, nth, combining, wide]
    omega

/-- C4 amended: every code point lying in some interval of the wide
table and in no interval of the combining table classifies as 2. -/
theorem claim_wide_table_amended (c : Nat) (hw : InTable wide c)
    (hnc : ¬ InTable combining c) : mk_wcwidth c = 2 := by
  obtain ⟨iv, hmem, hf, hl⟩ := hw
  have hlb := wide_first_lb iv hmem
  have hjam := wide_no_jamo iv hmem
  have hb : ¬ (bisearch c combining ((combining.length : Int) - 1) = true) :=
    fun hx => hnc ((bisearch_iff c combining combining_sorted (by decide)).mp hx)
  unfold mk_wcwidth
  rw [if_neg (by omega : ¬ c < 0x0300), if_neg hb,
    if_neg (by omega : ¬ c < 0x1100),
    if_neg (by omega : ¬ (0x1160 ≤ c ∧ c ≤ 0x11FF)),
    if_pos ((bisearch_iff c wide wide_sorted (by decide)).mpr ⟨iv, hmem, hf, hl⟩)]
  norm_num

/-- Witness for the amended C4 at the first CJK ideograph 0x4E00. -/
theorem claim_wide_table_amended_witness :
    InTable wide 0x4E00 ∧ ¬ InTable combining 0x4E00 ∧ mk_wcwidth 0x4E00 = 2 :=
  ⟨by decide, by decide, claim_wide_table_amended 0x4E00 (by decide) (by decide)⟩

/-- Counterexample to C5 as stated: the soft hyphen 0x00AD lies in the
zero-width table (its first interval), but the sub-0x300 fast path runs
first and classifies it as 1, not 0. -/
theorem claim_zero_width_cex :
    InTable combining 0x00AD ∧ mk_wcwidth 0x00AD ≠ 0 := by
  constructor
  · decide
  · decide

/-- C5 amended: every code point lying in some interval of the
zero-width table, other than the soft hyphen 0x00AD, classifies as 0. -/
theorem claim_zero_width_amended (c : Nat) (hc : InTable combining c)
    (hne : c ≠ 0x00AD) : mk_wcwidth c = 0 := by
  obtain ⟨iv, hmem, hf, hl⟩ := hc
  have hlow := combining_low iv hmem
  have hge : 0x300 ≤ c := by
    rcases hlow with ⟨ha, hb⟩ | hone
    · omega
    · omega
  unfold mk_wcwidth
  rw [if_neg (by omega : ¬ c < 0x0300),
    if_pos ((bisearch_iff c combining combining_sorted (by decide)).mpr
      ⟨iv, hmem, hf, hl⟩)]

/-- Witness for the amended C5 at the combining grave accent 0x300. -/
theorem claim_zero_width_amended_witness :
    InTable combining 0x300 ∧ ((0x300 : Nat) ≠ 0x00AD) ∧ mk_wcwidth 0x300 = 0 :=
  ⟨by decide, by decide, claim_zero_width_amended 0x300 (by decide) (by decide)⟩


/-- C6: the low-codepoint fast path: NUL classifies as 0, the two
control bands classify as -1, and every other code point below 0x300 —
including the soft hyphen 0x00AD — classifies as 1. -/
theorem claim_fast_path :
    mk_wcwidth 0 = 0 ∧
    (∀ c : Nat, 1 ≤ c → c ≤ 0x1F → mk_wcwidth c = -1) ∧
    (∀ c : Nat, 0x7F ≤ c → c ≤ 0x9F → mk_wcwidth c = -1) ∧
    mk_wcwidth 0x00AD = 1 ∧
    (∀ c : Nat, c < 0x300 → c ≠ 0 → ¬ (1 ≤ c ∧ c ≤ 0x1F) →
      ¬ (0x7F ≤ c ∧ c ≤ 0x9F) → mk_wcwidth c = 1) := by
  refine ⟨by decide, ?_, ?_, by decide, ?_⟩
  · intro c h1 h2
    unfold mk_wcwidth
    rw [if_pos (by omega : c < 0x0300), if_neg (by omega : ¬ c = 0),
      if_pos (by omega : c < 32 ∨ (0x7f ≤ c ∧ c < 0xa0))]
  · intro c h1 h2
    unfold mk_wcwidth
    rw [if_pos (by omega : c < 0x0300), if_neg (by omega : ¬ c = 0),
      if_pos (by omega : c < 32 ∨ (0x7f ≤ c ∧ c < 0xa0))]
  · intro c h1 h2 h3 h4
    unfold mk_wcwidth
    rw [if_pos (by omega : c < 0x0300), if_neg h2,
      if_neg (by omega : ¬ (c < 32 ∨ (0x7f ≤ c ∧ c < 0xa0)))]

/-- Witness for C6 at 0x07, 0x7F and 0x41. -/
theorem claim_fast_path_witness :
    mk_wcwidth 0x07 = -1 ∧ mk_wcwidth 0x7F = -1 ∧ mk_wcwidth 0x41 = 1 :=
  ⟨claim_fast_path.2.1 0x07 (by norm_num) (by norm_num),
   claim_fast_path.2.2.1 0x7F (by norm_num) (by norm_num),
   claim_fast_path.2.2.2.2 0x41 (by norm_num) (by norm_num) (by norm_num)
     (by norm_num)⟩

/-- C7: the legacy variant promotes exactly the width-1 code points of
the half-open band [0x00A1, 0xFF61) other than the Won sign 0x20A9 to
width 2, passes everything else through unchanged, and in particular
maps 0x20A9 to 1. -/
theorem claim_cjk_variant (c : Nat) :
    ((mk_wcwidth c = 1 ∧ 0x00A1 ≤ c ∧ c < 0xFF61 ∧ c ≠ 0x20A9) →
      mk_wcwidth_cjk c = 2) ∧
    (¬ (mk_wcwidth c = 1 ∧ 0x00A1 ≤ c ∧ c < 0xFF61 ∧ c ≠ 0x20A9) →
      mk_wcwidth_cjk c = mk_wcwidth c) ∧
    mk_wcwidth_cjk 0x20A9 = 1 := by
  have hdef : mk_wcwidth_cjk c =
      if mk_wcwidth c = 1 ∧ 0x00A1 ≤ c ∧ c < 0xFF61 ∧ c ≠ 0x20A9 then 2
      else mk_wcwidth c := rfl
  refine ⟨?_, ?_, ?_⟩
  · intro hcond
    rw [hdef, if_pos hcond]
  · intro hcond
    rw [hdef, if_neg hcond]
  · simp [mk_wcwidth_cjk, mk_wcwidth, bisearch, bisearchLoop, nth, combining,
      wide]

/-- Witness for C7 at the inverted exclamation mark 0x00A1 (promoted
from width 1 to width 2). -/
theorem claim_cjk_variant_witness :
    (mk_wcwidth 0x00A1 = 1 ∧ (0x00A1 : Nat) ≤ 0x00A1 ∧ (0x00A1 : Nat) < 0xFF61 ∧
        (0x00A1 : Nat) ≠ 0x20A9) ∧
      mk_wcwidth_cjk 0x00A1 = 2 :=
  ⟨⟨by decide, by norm_num, by norm_num, by norm_num⟩,
    (claim_cjk_variant 0x00A1).1 ⟨by decide, by norm_num, by norm_num, by norm_num⟩⟩

/-- C8: every code point of the Hangul Jamo band [0x1160, 0x11FF]
classifies as 0, although it is a member of no zero-width table
interval. -/
theorem claim_hangul_jamo (c : Nat) (h1 : 0x1160 ≤ c) (h2 : c ≤ 0x11FF) :
    mk_wcwidth c = 0 ∧ ¬ InTable combining c := by
  have hnc : ¬ InTable combining c := by
    rintro ⟨iv, hmem, hf, hl⟩
    have := combining_no_jamo iv hmem
    omega
  have hb : ¬ (bisearch c combining ((combining.length : Int) - 1) = true) :=
    fun hx => hnc ((bisearch_iff c combining combining_sorted (by decide)).mp hx)
  refine ⟨?_, hnc⟩
  unfold mk_wcwidth
  rw [if_neg (by omega : ¬ c < 0x0300), if_neg hb,
    if_neg (by omega : ¬ c < 0x1100), if_pos (⟨h1, h2⟩ : 0x1160 ≤ c ∧ c ≤ 0x11FF)]

/-- Witness for C8 at the Hangul Jungseong filler 0x1160. -/
theorem claim_hangul_jamo_witness :
    mk_wcwidth 0x1160 = 0 ∧ ¬ InTable combining 0x1160 :=
  claim_hangul_jamo 0x1160 (by norm_num) (by norm_num)

/-- C9: both constant interval tables satisfy the table invariant:
ordered entries, strictly ascending and hence non-overlapping. -/
theorem claim_table_invariant : SortedTable combining ∧ SortedTable wide :=
  ⟨combining_sorted, wide_sorted⟩

/-- C10: the two sequence accumulators depend only on the traversed
front of the sequence (the zero-free front capped at `n` elements);
limit 0 always yields 0; and a sequence whose traversed front is free of
non-printable code points never yields -1 (so a non-printable code
point after the terminator or beyond the limit cannot). -/
theorem claim_traversed_only :
    (∀ (l1 l2 : List Nat) (n : Nat),
      (l1.takeWhile (fun c => c ≠ 0)).take n =
          (l2.takeWhile (fun c => c ≠ 0)).take n →
        mk_wcswidth l1 n = mk_wcswidth l2 n ∧
        mk_wcswidth_cjk l1 n = mk_wcswidth_cjk l2 n) ∧
    (∀ l : List Nat, mk_wcswidth l 0 = 0 ∧ mk_wcswidth_cjk l 0 = 0) ∧
    (∀ (l : List Nat) (n : Nat),
      (∀ c ∈ (l.takeWhile (fun c => c ≠ 0)).take n, mk_wcwidth c ≠ -1) →
        mk_wcswidth l n ≠ -1) := by
  refine ⟨?_, ?_, ?_⟩
  · intro l1 l2 n heq
    constructor
    · rw [mk_wcswidth, mk_wcswidth, wcswidthLoop_eq, wcswidthLoop_eq, heq]
    · rw [mk_wcswidth_cjk, mk_wcswidth_cjk, wcswidthLoop_eq, wcswidthLoop_eq,
        heq]
  · intro l
    constructor
    · rw [mk_wcswidth, wcswidthLoop_eq]
      simp
    · rw [mk_wcswidth_cjk, wcswidthLoop_eq]
      simp
  · intro l n hall
    have hge : ∀ c ∈ (l.takeWhile (fun c => c ≠ 0)).take n, 0 ≤ mk_wcwidth c := by
      intro c hc
      have hm := mk_wcwidth_mem c
      have := hall c hc
      omega
    have hsum : 0 ≤ (((l.takeWhile (fun c => c ≠ 0)).take n).map mk_wcwidth).sum := by
      apply List.sum_nonneg
      intro x hx
      obtain ⟨c, hc, hxc⟩ := List.mem_map.mp hx
      rw [← hxc]
      exact hge c hc
    rw [mk_wcswidth, wcswidthLoop_eq, if_pos hge]
    omega

/-- Witness for C10: a sequence with junk after its terminator agrees
with the plain sequence, and a control character beyond the limit does
not force -1. -/
theorem claim_traversed_only_witness :
    (mk_wcswidth [0x41, 0, 0x07] 5 = mk_wcswidth [0x41] 5 ∧
      mk_wcswidth_cjk [0x41, 0, 0x07] 5 = mk_wcswidth_cjk [0x41] 5) ∧
    mk_wcswidth [0x41, 0x07] 1 ≠ -1 :=
  ⟨claim_traversed_only.1 [0x41, 0, 0x07] [0x41] 5 (by decide),
   claim_traversed_only.2.2 [0x41, 0x07] 1 (by decide)⟩

end Wcwidth
